import Mathlib

set_option autoImplicit false
set_option maxHeartbeats 1000000

/- Verification development for the blender snippet: the geometry-component
   attribute system (modelled from its specification, since only the header
   declarations appear in the sources), the Gabor texture shader node, and
   the outliner library-override tree expansion. -/

/- ------------------------------------------------------------------ -/
/- Gabor texture shader node (node_shader_gpu_tex_noise)              -/
/- ------------------------------------------------------------------ -/

/-- The static five-entry table of GPU shader function names indexed by the
node storage's dimensions field in node_shader_gpu_tex_noise. -/
def gaborNames : List String :=
  ["", "node_gabor_texture_1d", "node_gabor_texture_2d", "node_gabor_texture_3d",
   "node_gabor_texture_4d"]

/-- Embedding of the name selection in node_shader_gpu_tex_noise: the C code
performs the unchecked array access names[tex->dimensions]; the embedding
returns none exactly when that access would be out of bounds. -/
def node_shader_gpu_tex_noise (dimensions : Nat) : Option String :=
  gaborNames.get? dimensions

/- ------------------------------------------------------------------ -/
/- Outliner: TreeElementOverridesBase::expand                          -/
/- ------------------------------------------------------------------ -/

/-- One IDOverrideLibraryPropertyOperation; only the
IDOVERRIDE_LIBRARY_FLAG_IDPOINTER_MATCH_REFERENCE bit of its flag matters
for expansion. -/
structure OverrideOperation where
  flagMatchReference : Bool
deriving DecidableEq, Repr

/-- One IDOverrideLibraryProperty as seen by TreeElementOverridesBase::expand:
whether BKE_lib_override_rna_property_find succeeds, whether its
rna_prop_type is PROP_POINTER, whether RNA_struct_is_ID holds of its pointer
type, and its operations list. -/
structure OverrideProperty where
  findable : Bool
  isPointerRnaType : Bool
  pointerIsID : Bool
  operations : List OverrideOperation
deriving DecidableEq, Repr

/-- The do_continue loop of TreeElementOverridesBase::expand: starts true and
becomes false (with break) at the first operation lacking the
IDPOINTER_MATCH_REFERENCE flag. -/
def allOpsMatch : List OverrideOperation → Bool
  | [] => true
  | op :: rest => if op.flagMatchReference then allOpsMatch rest else false

/-- Embedding of TreeElementOverridesBase::expand: returns the override
properties for which a child tree element is added, in order. A property is
passed over when the RNA lookup fails, or when system overrides are hidden,
the property is an ID pointer, and every operation matches the reference. -/
def TreeElementOverridesBase.expand (showSystemOverrides : Bool) :
    List OverrideProperty → List OverrideProperty
  | [] => []
  | p :: rest =>
    if !p.findable then TreeElementOverridesBase.expand showSystemOverrides rest
    else if !showSystemOverrides && p.isPointerRnaType && p.pointerIsID
        && allOpsMatch p.operations then
      TreeElementOverridesBase.expand showSystemOverrides rest
    else p :: TreeElementOverridesBase.expand showSystemOverrides rest

/- ------------------------------------------------------------------ -/
/- Geometry-component attribute system (spec-modelled)                 -/
/- ------------------------------------------------------------------ -/

/-- Modelled from the spec: AttributeDomain, the fixed small set of per-kind
element granularities (the implementation behind the header declarations is
not among the sources). -/
inductive AttributeDomain where
  | point
  | edge
  | face
  | corner
deriving DecidableEq, Repr

/-- Modelled from the spec: CustomDataType, drawn from a fixed registry of
supported element types. -/
inductive CustomDataType where
  | floatType
  | intType
  | boolType
deriving DecidableEq, Repr

/-- Modelled from the spec: a runtime attribute value of one of the supported
element types (float carries an abstract numeric payload). -/
inductive Value where
  | vfloat (x : Int)
  | vint (x : Int)
  | vbool (b : Bool)
deriving DecidableEq, Repr

/-- Modelled from the spec: the documented zero value of each data type, used
by the Default initializer and by attribute_get_for_read when no default is
given. -/
def defaultValue : CustomDataType → Value
  | .floatType => .vfloat 0
  | .intType => .vint 0
  | .boolType => .vbool false

/-- Contains information about an attribute in a geometry component
(AttributeMetaData of the header). -/
structure AttributeMetaData where
  domain : AttributeDomain
  data_type : CustomDataType
deriving DecidableEq, Repr

/-- Modelled from the spec: one stored attribute of a component's side table,
a named per-element data channel over a domain with an element type. -/
structure Attribute where
  domain : AttributeDomain
  data_type : CustomDataType
  data : List Value
deriving DecidableEq, Repr

def Attribute.metaData (a : Attribute) : AttributeMetaData :=
  ⟨a.domain, a.data_type⟩

/-- The component kinds of the header (GeometryComponentType). -/
inductive GeometryComponentType where
  | mesh
  | pointCloud
  | instances
  | volume
deriving DecidableEq, Repr

/-- Modelled from the spec: the authoritative element counts of one component
for each domain. -/
structure DomainSizes where
  point : Nat
  edge : Nat
  face : Nat
  corner : Nat
deriving DecidableEq, Repr

def DomainSizes.size (s : DomainSizes) : AttributeDomain → Nat
  | .point => s.point
  | .edge => s.edge
  | .face => s.face
  | .corner => s.corner

/-- Modelled from the spec: which domains each component kind supports. -/
def domainSupported : GeometryComponentType → AttributeDomain → Bool
  | .mesh, _ => true
  | .pointCloud, .point => true
  | .pointCloud, _ => false
  | .instances, .point => true
  | .instances, _ => false
  | .volume, _ => false

/-- Modelled from the spec: GeometryComponent, the reference-counted,
kind-tagged unit of geometry data with its attribute side table (the header
declares it; the member definitions are not among the sources). -/
structure GeometryComponent where
  ctype : GeometryComponentType
  users : Nat
  sizes : DomainSizes
  attributes : List (String × Attribute)
deriving DecidableEq, Repr

/-- First-match lookup in an attribute side table. -/
def attrLookup (name : String) : List (String × Attribute) → Option Attribute
  | [] => none
  | p :: rest => if p.1 = name then some p.2 else attrLookup name rest

def GeometryComponent.is_mutable (c : GeometryComponent) : Bool :=
  c.users = 1

def GeometryComponent.user_add (c : GeometryComponent) : GeometryComponent :=
  { c with users := c.users + 1 }

def GeometryComponent.user_remove (c : GeometryComponent) : GeometryComponent :=
  { c with users := c.users - 1 }

def GeometryComponent.attribute_domain_supported (c : GeometryComponent)
    (domain : AttributeDomain) : Bool :=
  domainSupported c.ctype domain

def GeometryComponent.attribute_domain_size (c : GeometryComponent)
    (domain : AttributeDomain) : Nat :=
  c.sizes.size domain

/-- Get read-only access to the attribute with the given name at its native
domain and type; none if the attribute does not exist. -/
def GeometryComponent.attribute_try_get_for_read (c : GeometryComponent)
    (name : String) : Option Attribute :=
  attrLookup name c.attributes

/-- Modelled from the spec: attribute_try_adapt_domain returns the view
unchanged for the identity domain pair and none for a pair with no
implemented interpolation rule (the interpolation implementations are not
among the sources). -/
def GeometryComponent.attribute_try_adapt_domain (_ : GeometryComponent)
    (varray : List Value) (from_domain to_domain : AttributeDomain) :
    Option (List Value) :=
  if from_domain = to_domain then some varray else none

/-- Modelled from the spec: the external type-conversion registry; the
identity conversion is always available, other conversions may be
unsupported. -/
def convertArray (from_type to_type : CustomDataType) (vals : List Value) :
    Option (List Value) :=
  if from_type = to_type then some vals else none

/-- The fallible read path on a requested domain and data type: lookup, then
domain adaptation, then type conversion; none when any step fails. -/
def GeometryComponent.attribute_try_get_for_read_full (c : GeometryComponent)
    (name : String) (domain : AttributeDomain) (data_type : CustomDataType) :
    Option (List Value) :=
  match attrLookup name c.attributes with
  | none => none
  | some attr =>
    match c.attribute_try_adapt_domain attr.data attr.domain domain with
    | none => none
    | some vals => convertArray attr.data_type data_type vals

/-- A type-erased virtual array: either a materialized span or a broadcast
single value of a given length. -/
inductive GVArray where
  | span (vals : List Value)
  | single (val : Value) (len : Nat)
deriving DecidableEq, Repr

def GVArray.length : GVArray → Nat
  | .span vals => vals.length
  | .single _ len => len

def GVArray.get : GVArray → Nat → Value
  | .span vals, i => vals.getD i (Value.vint 0)
  | .single val _, _ => val

/-- Modelled from the spec: the total read variant attribute_get_for_read;
when the fallible path fails it returns a constant view of the requested
domain's length filled with the default value, or with the type's zero value
when no default is given. -/
def GeometryComponent.attribute_get_for_read (c : GeometryComponent)
    (name : String) (domain : AttributeDomain) (data_type : CustomDataType)
    (default_value : Option Value) : GVArray :=
  match c.attribute_try_get_for_read_full name domain data_type with
  | some vals => .span vals
  | none =>
    .single (default_value.getD (defaultValue data_type))
      (c.attribute_domain_size domain)

/-- The attribute initializer of the header: default-filled, copied from a
virtual array, or ownership-transferred from a pre-allocated buffer. -/
inductive AttributeInit where
  | default
  | varray (vals : List Value)
  | move (vals : List Value)
deriving DecidableEq, Repr

/-- Modelled from the spec: the data produced by an initializer for a new
attribute of the given length and type; the CopyFrom and TakeOwnership
variants fail when the supplied length does not match the target domain's
element count. -/
def initData (len : Nat) (data_type : CustomDataType) :
    AttributeInit → Option (List Value)
  | .default => some (List.replicate len (defaultValue data_type))
  | .varray vals => if vals.length = len then some vals else none
  | .move vals => if vals.length = len then some vals else none

/-- Modelled from the spec: attribute_try_create fails with the component
unchanged when the component is shared (not mutable), the domain is
unsupported by the component kind, the name collides with an existing
attribute, or the initializer data does not fit; it returns true exactly
when the attribute was created. -/
def GeometryComponent.attribute_try_create (c : GeometryComponent)
    (name : String) (domain : AttributeDomain) (data_type : CustomDataType)
    (initializer : AttributeInit) : Bool × GeometryComponent :=
  if !c.is_mutable then (false, c)
  else if !(c.attribute_domain_supported domain) then (false, c)
  else if (attrLookup name c.attributes).isSome then (false, c)
  else
    match initData (c.attribute_domain_size domain) data_type initializer with
    | none => (false, c)
    | some data =>
      (true, { c with attributes := (name, ⟨domain, data_type, data⟩) :: c.attributes })

/-- Modelled from the spec: attribute_foreach enumerates the attributes,
stopping at the first callback returning false; the result is false exactly
when iteration stopped early. -/
def foreachAux (callback : String → AttributeMetaData → Bool) :
    List (String × Attribute) → Bool
  | [] => true
  | p :: rest =>
    if callback p.1 p.2.metaData then foreachAux callback rest else false

def GeometryComponent.attribute_foreach (c : GeometryComponent)
    (callback : String → AttributeMetaData → Bool) : Bool :=
  foreachAux callback c.attributes

/-- The names visited by attribute_foreach, in visit order. -/
def foreachVisited (callback : String → AttributeMetaData → Bool) :
    List (String × Attribute) → List String
  | [] => []
  | p :: rest =>
    if callback p.1 p.2.metaData then p.1 :: foreachVisited callback rest else [p.1]

/-- Replace the entry of the given name, or append a new entry when the name
is absent. -/
def attrReplace (name : String) (a : Attribute) :
    List (String × Attribute) → List (String × Attribute)
  | [] => [(name, a)]
  | p :: rest => if p.1 = name then (name, a) :: rest else p :: attrReplace name a rest

/-- Modelled from the spec: an OutputAttribute handle; temporary is true when
the handle is backed by a temporary buffer that must be merged into the
component's permanent storage on release, and saved records whether the
commit already happened. -/
structure OutputAttribute where
  name : String
  domain : AttributeDomain
  data_type : CustomDataType
  buffer : List Value
  temporary : Bool
  saved : Bool
deriving DecidableEq, Repr

/-- Modelled from the spec: attribute_try_get_for_output; none when the
domain is unsupported; a direct handle when a compatible attribute exists; a
temporary-buffer handle (default-filled) when the name is absent or the
existing attribute has an incompatible domain or type, to be swapped in only
on release. -/
def GeometryComponent.attribute_try_get_for_output (c : GeometryComponent)
    (name : String) (domain : AttributeDomain) (data_type : CustomDataType)
    (default_value : Option Value) : Option OutputAttribute :=
  if !(c.attribute_domain_supported domain) then none
  else
    match attrLookup name c.attributes with
    | some attr =>
      if attr.domain = domain ∧ attr.data_type = data_type then
        some ⟨name, domain, data_type, attr.data, false, false⟩
      else
        some ⟨name, domain, data_type,
          List.replicate (c.attribute_domain_size domain)
            (default_value.getD (defaultValue data_type)), true, false⟩
    | none =>
      some ⟨name, domain, data_type,
        List.replicate (c.attribute_domain_size domain)
          (default_value.getD (defaultValue data_type)), true, false⟩

/-- Write one element through the handle (into its buffer). -/
def OutputAttribute.set (h : OutputAttribute) (i : Nat) (v : Value) :
    OutputAttribute :=
  { h with buffer := h.buffer.set i v }

/-- Modelled from the spec: releasing the handle commits the buffer to the
component's permanent storage exactly once; a handle that was already saved
commits nothing. -/
def OutputAttribute.save (h : OutputAttribute) (c : GeometryComponent) :
    GeometryComponent × OutputAttribute :=
  if h.saved then (c, h)
  else
    ({ c with attributes := attrReplace h.name ⟨h.domain, h.data_type, h.buffer⟩ c.attributes },
     { h with saved := true })

/- ------------------------------------------------------------------ -/
/- GeometrySet with explicit shared component store                    -/
/- ------------------------------------------------------------------ -/

/-- Modelled from the spec: the heap of reference-counted components; a
GeometrySet holds component ids into it, and sharing a component between two
sets is holding the same id. -/
structure Store where
  comps : List (Nat × GeometryComponent)
  nextId : Nat
deriving DecidableEq, Repr

def compLookup (id : Nat) : List (Nat × GeometryComponent) → Option GeometryComponent
  | [] => none
  | p :: rest => if p.1 = id then some p.2 else compLookup id rest

/-- A geometry set: at most one component id per kind. -/
abbrev GeometrySet := List (GeometryComponentType × Nat)

def glookup (k : GeometryComponentType) : GeometrySet → Option Nat
  | [] => none
  | p :: rest => if p.1 = k then some p.2 else glookup k rest

def greplace (k : GeometryComponentType) (id : Nat) : GeometrySet → GeometrySet
  | [] => [(k, id)]
  | p :: rest => if p.1 = k then (k, id) :: rest else p :: greplace k id rest

def bumpUsers (c : GeometryComponent) (n : Nat) : GeometryComponent :=
  { c with users := c.users + n }

/-- Modelled from the spec: copying a GeometrySet is cheap; the copy shares
every component id and increments each referenced component's reference
count (here: by the number of references the set holds to it). -/
def copySet (s : Store) (A : GeometrySet) : Store :=
  { s with comps := s.comps.map (fun p =>
      (p.1, bumpUsers p.2 (List.countP (fun q => decide (q.2 = p.1)) A))) }

def emptyComponent (k : GeometryComponentType) : GeometryComponent :=
  ⟨k, 1, ⟨0, 0, 0, 0⟩, []⟩

def Store.setComp (s : Store) (id : Nat) (c : GeometryComponent) : Store :=
  { s with comps := s.comps.map (fun p => (p.1, if p.1 = id then c else p.2)) }

/-- Modelled from the spec: GeometrySet::get_component_for_write; creates an
empty component on first access; when the stored reference is shared it
clones it (copy-on-write), decrements the shared reference's count, and
replaces the map entry; returns the updated store, set, and the id of the
mutable component. -/
def GeometrySet.get_component_for_write (s : Store) (g : GeometrySet)
    (k : GeometryComponentType) : Store × GeometrySet × Nat :=
  match glookup k g with
  | none =>
    (⟨(s.nextId, emptyComponent k) :: s.comps, s.nextId + 1⟩,
     (k, s.nextId) :: g, s.nextId)
  | some id =>
    match compLookup id s.comps with
    | none => (s, g, id)
    | some c =>
      if c.users ≤ 1 then (s, g, id)
      else
        (⟨(s.nextId, { c with users := 1 })
            :: (s.setComp id { c with users := c.users - 1 }).comps, s.nextId + 1⟩,
         greplace k s.nextId g, s.nextId)

/-- An arbitrary mutation of the attribute state of the component with the
given id. -/
def mutateAttributesAt (s : Store) (id : Nat)
    (f : List (String × Attribute) → List (String × Attribute)) : Store :=
  { s with comps := s.comps.map (fun p =>
      (p.1, if p.1 = id then { p.2 with attributes := f p.2.attributes } else p.2)) }

/-- The attribute state reachable through a component id. -/
def readAttributes (s : Store) (id : Nat) : Option (List (String × Attribute)) :=
  (compLookup id s.comps).map (fun c => c.attributes)

/- Concrete fixtures used by the witnesses. -/

/-- A mesh component with one point-domain float attribute. -/
def c0 : GeometryComponent :=
  ⟨.mesh, 1, ⟨4, 9, 5, 20⟩,
   [("color", ⟨.point, .floatType, [.vfloat 1, .vfloat 2, .vfloat 3, .vfloat 4]⟩)]⟩

/-- The same component, shared (two users). -/
def c1 : GeometryComponent := { c0 with users := 2 }

def st0 : Store := ⟨[(0, c0)], 1⟩

def st1 : Store := ⟨[(0, c1)], 1⟩

def gs1 : GeometrySet := [(.mesh, 0)]

/-- The temporary output handle produced for the name color on the face
domain with int type over c0. -/
def hOut : OutputAttribute :=
  ⟨"color", .face, .intType, List.replicate 5 (Value.vint 0), true, false⟩

/- ------------------------------------------------------------------ -/
/- Helper lemmas                                                       -/
/- ------------------------------------------------------------------ -/

theorem compLookup_map_keyed (g : Nat → GeometryComponent → GeometryComponent)
    (id : Nat) (l : List (Nat × GeometryComponent)) :
    compLookup id (l.map (fun p => (p.1, g p.1 p.2)))
      = (compLookup id l).map (g id) := by
  induction l with
  | nil => rfl
  | cons p rest ih =>
    simp only [List.map, compLookup]
    by_cases h : p.1 = id
    · subst h
      simp
    · simp [h, ih]

theorem compLookup_copySet (s : Store) (A : GeometrySet) (j : Nat) :
    compLookup j (copySet s A).comps
      = (compLookup j s.comps).map
          (fun c => bumpUsers c (List.countP (fun q => decide (q.2 = j)) A)) := by
  have h := compLookup_map_keyed
    (fun i c => bumpUsers c (List.countP (fun q => decide (q.2 = i)) A)) j s.comps
  exact h

theorem compLookup_map_bump (A : GeometrySet) (j : Nat)
    (l : List (Nat × GeometryComponent)) :
    compLookup j (l.map (fun p =>
        (p.1, bumpUsers p.2 (List.countP (fun q => decide (q.2 = p.1)) A))))
      = (compLookup j l).map
          (fun c => bumpUsers c (List.countP (fun q => decide (q.2 = j)) A)) := by
  have h := compLookup_map_keyed
    (fun i c => bumpUsers c (List.countP (fun q => decide (q.2 = i)) A)) j l
  exact h

theorem compLookup_mutateAt (st : Store) (id : Nat)
    (f : List (String × Attribute) → List (String × Attribute)) (j : Nat) :
    compLookup j (mutateAttributesAt st id f).comps
      = (compLookup j st.comps).map
          (fun c => if j = id then { c with attributes := f c.attributes } else c) := by
  have h := compLookup_map_keyed
    (fun i c => if i = id then { c with attributes := f c.attributes } else c) j st.comps
  exact h

theorem compLookup_map_mutF
    (f : List (String × Attribute) → List (String × Attribute)) (nid j : Nat)
    (l : List (Nat × GeometryComponent)) :
    compLookup j (l.map (fun p =>
        (p.1, if p.1 = nid then { p.2 with attributes := f p.2.attributes } else p.2)))
      = (compLookup j l).map
          (fun c => if j = nid then { c with attributes := f c.attributes } else c) := by
  have h := compLookup_map_keyed
    (fun i c => if i = nid then { c with attributes := f c.attributes } else c) j l
  exact h

theorem compLookup_setComp (st : Store) (id : Nat) (c' : GeometryComponent)
    (j : Nat) :
    compLookup j (st.setComp id c').comps
      = (compLookup j st.comps).map (fun c => if j = id then c' else c) := by
  have h := compLookup_map_keyed (fun i c => if i = id then c' else c) j st.comps
  exact h

theorem compLookup_map_setF (c' : GeometryComponent) (id j : Nat)
    (l : List (Nat × GeometryComponent)) :
    compLookup j (l.map (fun p => (p.1, if p.1 = id then c' else p.2)))
      = (compLookup j l).map (fun c => if j = id then c' else c) := by
  have h := compLookup_map_keyed (fun i c => if i = id then c' else c) j l
  exact h

theorem glookup_mem (k : GeometryComponentType) (A : GeometrySet) (id : Nat)
    (h : glookup k A = some id) : (k, id) ∈ A := by
  induction A with
  | nil => simp [glookup] at h
  | cons p rest ih =>
    simp only [glookup] at h
    by_cases hk : p.1 = k
    · rw [if_pos hk] at h
      injection h with h
      have hp : p = (k, id) := by
        cases p
        simp_all
      rw [hp]
      exact List.mem_cons_self _ _
    · rw [if_neg hk] at h
      exact List.mem_cons_of_mem p (ih h)

theorem attrLookup_attrReplace (name : String) (a : Attribute)
    (l : List (String × Attribute)) :
    attrLookup name (attrReplace name a l) = some a := by
  induction l with
  | nil => simp [attrReplace, attrLookup]
  | cons p rest ih =>
    simp only [attrReplace]
    by_cases h : p.1 = name
    · simp [h, attrLookup]
    · simp [h, attrLookup, ih]

theorem foreachAux_eq_false_iff (callback : String → AttributeMetaData → Bool)
    (l : List (String × Attribute)) :
    foreachAux callback l = false
      ↔ ∃ p ∈ l, callback p.1 p.2.metaData = false := by
  induction l with
  | nil => simp [foreachAux]
  | cons p rest ih =>
    simp only [foreachAux]
    by_cases h : callback p.1 p.2.metaData = true
    · rw [if_pos h]
      rw [ih]
      constructor
      · rintro ⟨q, hq, hcb⟩
        exact ⟨q, List.mem_cons_of_mem p hq, hcb⟩
      · rintro ⟨q, hq, hcb⟩
        rcases List.mem_cons.mp hq with hq | hq
        · rw [hq] at hcb
          rw [h] at hcb
          cases hcb
        · exact ⟨q, hq, hcb⟩
    · rw [if_neg h]
      simp only [Bool.not_eq_true] at h
      exact ⟨fun _ => ⟨p, List.mem_cons_self p rest, h⟩, fun _ => rfl⟩

theorem allOpsMatch_iff (ops : List OverrideOperation) :
    allOpsMatch ops = true ↔ ∀ op ∈ ops, op.flagMatchReference = true := by
  induction ops with
  | nil => simp [allOpsMatch]
  | cons op rest ih =>
    simp only [allOpsMatch]
    by_cases h : op.flagMatchReference = true
    · simp [h, ih]
    · simp [h]

/-- Claim C9: the GPU shader function name in node_shader_gpu_tex_noise is
chosen by indexing the five-entry static table with the dimensions field;
the access is in bounds exactly when dimensions is at most 4, for dimensions
between 1 and 4 the name is node_gabor_texture_(d)d, and index 0 selects the
empty string. -/
theorem gabor_gpu_name_table_indexing (d : Nat) :
    ((node_shader_gpu_tex_noise d).isSome = true ↔ d ≤ 4)
    ∧ (1 ≤ d → d ≤ 4 →
        node_shader_gpu_tex_noise d = some ("node_gabor_texture_" ++ Nat.repr d ++ "d"))
    ∧ node_shader_gpu_tex_noise 0 = some "" := by
  refine ⟨?_, ?_, rfl⟩
  · constructor
    · intro h
      by_contra hgt
      push_neg at hgt
      have hnone : gaborNames.get? d = none := by
        apply List.get?_eq_none.mpr
        simp only [gaborNames, List.length]
        omega
      simp only [node_shader_gpu_tex_noise] at h
      rw [hnone] at h
      simp at h
    · intro h
      interval_cases d <;> rfl
  · intro h1 h2
    interval_cases d <;> rfl

/-- Witness for C9 at dimensions = 3. -/
theorem gabor_gpu_name_table_indexing_witness :
    ((node_shader_gpu_tex_noise 3).isSome = true ↔ 3 ≤ 4)
    ∧ (1 ≤ 3 → 3 ≤ 4 →
        node_shader_gpu_tex_noise 3 = some ("node_gabor_texture_" ++ Nat.repr 3 ++ "d"))
    ∧ node_shader_gpu_tex_noise 0 = some "" :=
  gabor_gpu_name_table_indexing 3

/-- Claim C10: in TreeElementOverridesBase::expand with system overrides
hidden, a findable ID-pointer override property is skipped (adds no child)
exactly when every operation carries the IDPOINTER_MATCH_REFERENCE flag; in
particular a property with an empty operation list is always skipped. -/
theorem override_expand_system_skip (p : OverrideProperty)
    (hf : p.findable = true) (hptr : p.isPointerRnaType = true)
    (hid : p.pointerIsID = true) :
    (∀ rest, TreeElementOverridesBase.expand false (p :: rest)
        = (if (∀ op ∈ p.operations, op.flagMatchReference = true)
           then TreeElementOverridesBase.expand false rest
           else p :: TreeElementOverridesBase.expand false rest))
    ∧ (p.operations = [] → TreeElementOverridesBase.expand false [p] = []) := by
  constructor
  · intro rest
    simp only [TreeElementOverridesBase.expand, hf, hptr, hid]
    by_cases h : allOpsMatch p.operations = true
    · rw [if_pos ((allOpsMatch_iff p.operations).mp h)]
      simp [h]
    · rw [if_neg (fun hall => h ((allOpsMatch_iff p.operations).mpr hall))]
      simp [Bool.not_eq_true] at h
      simp [h]
  · intro hops
    simp [TreeElementOverridesBase.expand, hf, hptr, hid, hops, allOpsMatch]

/-- Witness for C10 at a property with one reference-matching operation. -/
theorem override_expand_system_skip_witness :
    (OverrideProperty.mk true true true [OverrideOperation.mk true]).findable = true
    ∧ ((∀ rest, TreeElementOverridesBase.expand false
          (OverrideProperty.mk true true true [OverrideOperation.mk true] :: rest)
        = (if (∀ op ∈ (OverrideProperty.mk true true true
              [OverrideOperation.mk true]).operations, op.flagMatchReference = true)
           then TreeElementOverridesBase.expand false rest
           else OverrideProperty.mk true true true [OverrideOperation.mk true]
              :: TreeElementOverridesBase.expand false rest))
      ∧ ((OverrideProperty.mk true true true [OverrideOperation.mk true]).operations = []
          → TreeElementOverridesBase.expand false
              [OverrideProperty.mk true true true [OverrideOperation.mk true]] = [])) :=
  ⟨rfl, override_expand_system_skip _ rfl rfl rfl⟩

/-- Claim C1: attribute_get_for_read never fails; when the attribute is
missing or cannot be converted or adapted it returns a view whose length is
the component's element count for the requested domain and whose every
element is the default value (or the type's zero value when none is given).
Spec-modelled, since the implementation is not among the sources. -/
theorem attribute_get_for_read_total_default (c : GeometryComponent)
    (name : String) (domain : AttributeDomain) (data_type : CustomDataType)
    (default_value : Option Value)
    (h : c.attribute_try_get_for_read_full name domain data_type = none) :
    (c.attribute_get_for_read name domain data_type default_value).length
        = c.attribute_domain_size domain
    ∧ ∀ i, i < c.attribute_domain_size domain →
        (c.attribute_get_for_read name domain data_type default_value).get i
          = default_value.getD (defaultValue data_type) := by
  constructor
  · simp [GeometryComponent.attribute_get_for_read, h, GVArray.length]
  · intro i _
    simp [GeometryComponent.attribute_get_for_read, h, GVArray.get]

/-- Witness for C1: reading a missing attribute from c0. -/
theorem attribute_get_for_read_total_default_witness :
    c0.attribute_try_get_for_read_full "missing" .point .floatType = none
    ∧ ((c0.attribute_get_for_read "missing" .point .floatType none).length
          = c0.attribute_domain_size .point
       ∧ ∀ i, i < c0.attribute_domain_size .point →
          (c0.attribute_get_for_read "missing" .point .floatType none).get i
            = (none : Option Value).getD (defaultValue .floatType)) :=
  ⟨by decide,
   attribute_get_for_read_total_default c0 "missing" .point .floatType none (by decide)⟩

/-- Claim C8: adapting a view from a supported domain X to X itself succeeds
and returns the original view, and a domain pair with no implemented
interpolation rule yields none rather than a fatal failure. Spec-modelled. -/
theorem attribute_try_adapt_domain_identity (c : GeometryComponent)
    (vals : List Value) (X : AttributeDomain)
    (_hX : c.attribute_domain_supported X = true) :
    c.attribute_try_adapt_domain vals X X = some vals
    ∧ ∀ Y, X ≠ Y → c.attribute_try_adapt_domain vals X Y = none := by
  constructor
  · simp [GeometryComponent.attribute_try_adapt_domain]
  · intro Y hXY
    simp [GeometryComponent.attribute_try_adapt_domain, hXY]

/-- Witness for C8 on the point domain of c0. -/
theorem attribute_try_adapt_domain_identity_witness :
    c0.attribute_domain_supported .point = true
    ∧ (c0.attribute_try_adapt_domain [Value.vint 7] .point .point
          = some [Value.vint 7]
       ∧ ∀ Y, AttributeDomain.point ≠ Y →
          c0.attribute_try_adapt_domain [Value.vint 7] .point Y = none) :=
  ⟨by decide,
   attribute_try_adapt_domain_identity c0 [Value.vint 7] .point (by decide)⟩

/-- Claim C3: is_mutable holds exactly when the reference count is 1;
user_add and user_remove preserve the correspondence; a mutating operation
on a shared component leaves it unchanged, and requesting write access to a
shared component through the geometry set clones it rather than writing
through the shared instance. Spec-modelled. -/
theorem is_mutable_refcount_invariant (c : GeometryComponent) :
    (c.is_mutable = true ↔ c.users = 1)
    ∧ (c.user_add.is_mutable = true ↔ c.user_add.users = 1)
    ∧ (c.user_remove.is_mutable = true ↔ c.user_remove.users = 1)
    ∧ (∀ name domain data_type initializer, 1 < c.users →
        (c.attribute_try_create name domain data_type initializer).2 = c
        ∧ (c.attribute_try_create name domain data_type initializer).1 = false)
    ∧ (∀ (s : Store) (g : GeometrySet) (k : GeometryComponentType) (id : Nat),
        glookup k g = some id → compLookup id s.comps = some c → 1 < c.users →
        (GeometrySet.get_component_for_write s g k).2.2 = s.nextId
        ∧ compLookup s.nextId (GeometrySet.get_component_for_write s g k).1.comps
            = some { c with users := 1 }) := by
  refine ⟨?_, ?_, ?_, ?_, ?_⟩
  · simp [GeometryComponent.is_mutable]
  · simp [GeometryComponent.is_mutable]
  · simp [GeometryComponent.is_mutable]
  · intro name domain data_type initializer husers
    have hne : ¬(c.users = 1) := by omega
    constructor
    · simp [GeometryComponent.attribute_try_create, GeometryComponent.is_mutable, hne]
    · simp [GeometryComponent.attribute_try_create, GeometryComponent.is_mutable, hne]
  · intro s g k id hg hc husers
    have hgt : ¬(c.users ≤ 1) := by omega
    constructor
    · simp [GeometrySet.get_component_for_write, hg, hc, hgt]
    · simp [GeometrySet.get_component_for_write, hg, hc, hgt, compLookup]

/-- Witness for C3: write access to the shared component of st1 clones it. -/
theorem is_mutable_refcount_invariant_witness :
    glookup .mesh gs1 = some 0
    ∧ compLookup 0 st1.comps = some c1
    ∧ 1 < c1.users
    ∧ ((GeometrySet.get_component_for_write st1 gs1 .mesh).2.2 = st1.nextId
       ∧ compLookup st1.nextId (GeometrySet.get_component_for_write st1 gs1 .mesh).1.comps
           = some { c1 with users := 1 }) :=
  ⟨by decide, by decide, by decide,
   (is_mutable_refcount_invariant c1).2.2.2.2 st1 gs1 .mesh 0 (by decide) (by decide)
     (by decide)⟩

/-- Claim C4: attribute_try_create returns false and leaves the component
unchanged when the domain is unsupported, the name collides with an existing
attribute, or the component is not mutable; it returns true only when the
attribute was actually created (present afterwards, absent before).
Spec-modelled. -/
theorem attribute_try_create_failure_atomic (c : GeometryComponent)
    (name : String) (domain : AttributeDomain) (data_type : CustomDataType)
    (initializer : AttributeInit) :
    ((c.attribute_try_create name domain data_type initializer).1 = false →
      (c.attribute_try_create name domain data_type initializer).2 = c)
    ∧ ((c.attribute_domain_supported domain = false
          ∨ (attrLookup name c.attributes).isSome = true
          ∨ c.is_mutable = false) →
        (c.attribute_try_create name domain data_type initializer).1 = false)
    ∧ ((c.attribute_try_create name domain data_type initializer).1 = true →
        (attrLookup name
            (c.attribute_try_create name domain data_type initializer).2.attributes).isSome
            = true
        ∧ attrLookup name c.attributes = none) := by
  by_cases hm : c.is_mutable = true
  · by_cases hd : c.attribute_domain_supported domain = true
    · cases hlk : attrLookup name c.attributes with
      | some a =>
        refine ⟨?_, ?_, ?_⟩
        · intro _
          simp [GeometryComponent.attribute_try_create, hm, hd, hlk]
        · intro _
          simp [GeometryComponent.attribute_try_create, hm, hd, hlk]
        · intro habs
          simp [GeometryComponent.attribute_try_create, hm, hd, hlk] at habs
      | none =>
        cases hinit : initData (c.attribute_domain_size domain) data_type initializer with
        | none =>
          refine ⟨?_, ?_, ?_⟩
          · intro _
            simp [GeometryComponent.attribute_try_create, hm, hd, hlk, hinit]
          · intro h
            rcases h with h | h | h
            · rw [hd] at h
              cases h
            · simp at h
            · rw [hm] at h
              cases h
          · intro habs
            simp [GeometryComponent.attribute_try_create, hm, hd, hlk, hinit] at habs
        | some data =>
          refine ⟨?_, ?_, ?_⟩
          · intro habs
            simp [GeometryComponent.attribute_try_create, hm, hd, hlk, hinit] at habs
          · intro h
            rcases h with h | h | h
            · rw [hd] at h
              cases h
            · simp at h
            · rw [hm] at h
              cases h
          · intro _
            constructor
            · simp [GeometryComponent.attribute_try_create, hm, hd, hlk, hinit, attrLookup]
            · rfl
    · simp only [Bool.not_eq_true] at hd
      refine ⟨?_, ?_, ?_⟩
      · intro _
        simp [GeometryComponent.attribute_try_create, hm, hd]
      · intro _
        simp [GeometryComponent.attribute_try_create, hm, hd]
      · intro habs
        simp [GeometryComponent.attribute_try_create, hm, hd] at habs
  · simp only [Bool.not_eq_true] at hm
    refine ⟨?_, ?_, ?_⟩
    · intro _
      simp [GeometryComponent.attribute_try_create, hm]
    · intro _
      simp [GeometryComponent.attribute_try_create, hm]
    · intro habs
      simp [GeometryComponent.attribute_try_create, hm] at habs

/-- Witness for C4: a successful creation on c0 was absent before and is
present afterwards. -/
theorem attribute_try_create_failure_atomic_witness :
    (c0.attribute_try_create "mass" .point .intType .default).1 = true
    ∧ ((attrLookup "mass"
          (c0.attribute_try_create "mass" .point .intType .default).2.attributes).isSome
          = true
       ∧ attrLookup "mass" c0.attributes = none) :=
  ⟨by decide,
   (attribute_try_create_failure_atomic c0 "mass" .point .intType .default).2.2 (by decide)⟩

/-- Claim C6: after a successful attribute_try_create with the CopyFrom
initializer, attribute_try_get_for_read of the same name returns a view
element-wise equal to the original view. Spec-modelled. -/
theorem attribute_create_read_round_trip (c : GeometryComponent)
    (name : String) (domain : AttributeDomain) (data_type : CustomDataType)
    (vals : List Value)
    (hm : c.is_mutable = true)
    (hd : c.attribute_domain_supported domain = true)
    (hlen : vals.length = c.attribute_domain_size domain)
    (hsucc : (c.attribute_try_create name domain data_type (.varray vals)).1 = true) :
    (c.attribute_try_create name domain data_type
        (.varray vals)).2.attribute_try_get_for_read name
      = some ⟨domain, data_type, vals⟩ := by
  cases hlk : attrLookup name c.attributes with
  | some a =>
    simp [GeometryComponent.attribute_try_create, hm, hd, hlk] at hsucc
  | none =>
    simp [GeometryComponent.attribute_try_create, hm, hd, hlk, initData, hlen,
      GeometryComponent.attribute_try_get_for_read, attrLookup]

/-- Witness for C6: creating and reading back a four-element point attribute
on c0. -/
theorem attribute_create_read_round_trip_witness :
    c0.is_mutable = true
    ∧ c0.attribute_domain_supported .point = true
    ∧ [Value.vfloat 9, Value.vfloat 8, Value.vfloat 7,
        Value.vfloat 6].length = c0.attribute_domain_size .point
    ∧ (c0.attribute_try_create "weights" .point .floatType
        (.varray [Value.vfloat 9, Value.vfloat 8, Value.vfloat 7, Value.vfloat 6])).1 = true
    ∧ (c0.attribute_try_create "weights" .point .floatType
        (.varray [Value.vfloat 9, Value.vfloat 8, Value.vfloat 7,
          Value.vfloat 6])).2.attribute_try_get_for_read "weights"
        = some ⟨.point, .floatType,
            [Value.vfloat 9, Value.vfloat 8, Value.vfloat 7, Value.vfloat 6]⟩ :=
  ⟨by decide, by decide, by decide, by decide,
   attribute_create_read_round_trip c0 "weights" .point .floatType
     [Value.vfloat 9, Value.vfloat 8, Value.vfloat 7, Value.vfloat 6]
     (by decide) (by decide) (by decide) (by decide)⟩

/-- Claim C7: attribute_foreach returns false exactly when iteration stopped
early at a callback returning false, and a callback returning false on its
first invocation makes foreach visit exactly one attribute and return false.
Spec-modelled. -/
theorem attribute_foreach_early_termination (c : GeometryComponent)
    (callback : String → AttributeMetaData → Bool) :
    (c.attribute_foreach callback = false
        ↔ ∃ p ∈ c.attributes, callback p.1 p.2.metaData = false)
    ∧ (∀ p rest, c.attributes = p :: rest → callback p.1 p.2.metaData = false →
        foreachVisited callback c.attributes = [p.1]
        ∧ c.attribute_foreach callback = false) := by
  constructor
  · exact foreachAux_eq_false_iff callback c.attributes
  · intro p rest hattrs hfalse
    constructor
    · rw [hattrs]
      simp [foreachVisited, hfalse]
    · rw [GeometryComponent.attribute_foreach, hattrs]
      simp [foreachAux, hfalse]

/-- Witness for C7: the always-false callback on c0 visits only the first
attribute. -/
theorem attribute_foreach_early_termination_witness :
    c0.attributes
      = ("color", ⟨.point, .floatType,
          [.vfloat 1, .vfloat 2, .vfloat 3, .vfloat 4]⟩) :: []
    ∧ (foreachVisited (fun _ _ => false) c0.attributes = ["color"]
       ∧ c0.attribute_foreach (fun _ _ => false) = false) :=
  ⟨by decide,
   (attribute_foreach_early_termination c0 (fun _ _ => false)).2
     ("color", ⟨.point, .floatType, [.vfloat 1, .vfloat 2, .vfloat 3, .vfloat 4]⟩)
     [] (by decide) (by decide)⟩

/-- Claim C5: a temporary-buffer output handle leaves readers observing the
old attribute until release; releasing it commits the written buffer to the
component's storage (visible to a subsequent read of the same name), marks
the handle saved, and a second release commits nothing. Spec-modelled; the
C++ guarantee that the commit runs on every exit path is the destructor of
the handle, modelled here by the single explicit save operation. -/
theorem output_attribute_commit_on_release (c : GeometryComponent)
    (name : String) (domain : AttributeDomain) (data_type : CustomDataType)
    (default_value : Option Value) (h : OutputAttribute) (b : List Value)
    (hget : c.attribute_try_get_for_output name domain data_type default_value = some h)
    (htemp : h.temporary = true) :
    (∀ a0, attrLookup name c.attributes = some a0 →
        c.attribute_try_get_for_read name = some a0)
    ∧ (({ h with buffer := b }.save c).1.attribute_try_get_for_read name
        = some ⟨domain, data_type, b⟩)
    ∧ (({ h with buffer := b }.save c).2.saved = true)
    ∧ (({ h with buffer := b }.save c).2.save (({ h with buffer := b }.save c).1)
        = (({ h with buffer := b }.save c).1, ({ h with buffer := b }.save c).2)) := by
  have hfields : h.name = name ∧ h.domain = domain ∧ h.data_type = data_type
      ∧ h.saved = false := by
    by_cases hsup : c.attribute_domain_supported domain = true
    · cases hlk : attrLookup name c.attributes with
      | some attr =>
        by_cases hcompat : attr.domain = domain ∧ attr.data_type = data_type
        · simp [GeometryComponent.attribute_try_get_for_output, hsup, hlk, hcompat] at hget
          rw [← hget] at htemp
          cases htemp
        · simp [GeometryComponent.attribute_try_get_for_output, hsup, hlk, hcompat] at hget
          rw [← hget]
          exact ⟨rfl, rfl, rfl, rfl⟩
      | none =>
        simp [GeometryComponent.attribute_try_get_for_output, hsup, hlk] at hget
        rw [← hget]
        exact ⟨rfl, rfl, rfl, rfl⟩
    · simp only [Bool.not_eq_true] at hsup
      simp [GeometryComponent.attribute_try_get_for_output, hsup] at hget
  obtain ⟨hn, hdm, hdt, hs⟩ := hfields
  refine ⟨?_, ?_, ?_, ?_⟩
  · intro a0 ha0
    rw [GeometryComponent.attribute_try_get_for_read, ha0]
  · rw [OutputAttribute.save]
    simp only [hs, if_false]
    rw [GeometryComponent.attribute_try_get_for_read]
    simp only [hn, hdm, hdt]
    exact attrLookup_attrReplace name ⟨domain, data_type, b⟩ c.attributes
  · rw [OutputAttribute.save]
    simp [hs]
  · rw [OutputAttribute.save]
    simp only [hs, if_false]
    rw [OutputAttribute.save]
    simp

/-- Witness for C5: the temporary handle hOut over c0, written with five
ones and released. -/
theorem output_attribute_commit_on_release_witness :
    c0.attribute_try_get_for_output "color" .face .intType none = some hOut
    ∧ hOut.temporary = true
    ∧ ((∀ a0, attrLookup "color" c0.attributes = some a0 →
          c0.attribute_try_get_for_read "color" = some a0)
      ∧ (({ hOut with buffer := List.replicate 5 (Value.vint 1) }.save
            c0).1.attribute_try_get_for_read "color"
          = some ⟨.face, .intType, List.replicate 5 (Value.vint 1)⟩)
      ∧ (({ hOut with buffer := List.replicate 5 (Value.vint 1) }.save c0).2.saved = true)
      ∧ (({ hOut with buffer := List.replicate 5 (Value.vint 1) }.save c0).2.save
            (({ hOut with buffer := List.replicate 5 (Value.vint 1) }.save c0).1)
          = (({ hOut with buffer := List.replicate 5 (Value.vint 1) }.save c0).1,
             ({ hOut with buffer := List.replicate 5 (Value.vint 1) }.save c0).2))) :=
  ⟨by decide, by decide,
   output_attribute_commit_on_release c0 "color" .face .intType none hOut
     (List.replicate 5 (Value.vint 1)) (by decide) (by decide)⟩


/-- Claim C2: letting B be a copy of A (sharing every component id and
bumping reference counts), any mutation of the attribute state performed
through the component returned by get_component_for_write on B leaves every
attribute value reachable through A unchanged. Spec-modelled. -/
theorem geometry_set_copy_on_write_no_aliasing
    (s : Store) (A : GeometrySet) (k : GeometryComponentType)
    (f : List (String × Attribute) → List (String × Attribute))
    (hId : ∀ p ∈ A, p.2 < s.nextId)
    (hUsers : ∀ p ∈ A, ∀ c, compLookup p.2 s.comps = some c → 1 ≤ c.users) :
    ∀ p ∈ A,
      readAttributes
        (mutateAttributesAt
          (GeometrySet.get_component_for_write (copySet s A) A k).1
          (GeometrySet.get_component_for_write (copySet s A) A k).2.2 f) p.2
      = readAttributes s p.2 := by
  intro p hp
  have hj : p.2 < s.nextId := hId p hp
  have h0 : (copySet s A).nextId = s.nextId := rfl
  have hne' : ¬(p.2 = (copySet s A).nextId) := by omega
  have hne : ¬((copySet s A).nextId = p.2) := fun h => hne' h.symm
  cases hgl : glookup k A with
  | none =>
    have hw : GeometrySet.get_component_for_write (copySet s A) A k
        = (⟨((copySet s A).nextId, emptyComponent k) :: (copySet s A).comps,
            (copySet s A).nextId + 1⟩,
           (k, (copySet s A).nextId) :: A, (copySet s A).nextId) := by
      simp only [GeometrySet.get_component_for_write, hgl]
    rw [hw]
    cases hcl2 : compLookup p.2 s.comps with
    | none =>
      simp [readAttributes, compLookup_mutateAt, compLookup_map_mutF f,
        compLookup_copySet, compLookup_map_bump, compLookup, hne, hne', hcl2]
    | some c2 =>
      simp [readAttributes, compLookup_mutateAt, compLookup_map_mutF f,
        compLookup_copySet, compLookup_map_bump, compLookup, hne, hne', hcl2, bumpUsers]
  | some id =>
    cases hcl : compLookup id s.comps with
    | none =>
      have hclc : compLookup id (copySet s A).comps = none := by
        rw [compLookup_copySet, hcl]
        rfl
      have hw : GeometrySet.get_component_for_write (copySet s A) A k
          = (copySet s A, A, id) := by
        simp only [GeometrySet.get_component_for_write, hgl, hclc]
      rw [hw]
      by_cases hpid : p.2 = id
      · subst hpid
        simp [readAttributes, compLookup_mutateAt, compLookup_map_mutF f,
          compLookup_copySet, compLookup_map_bump, hcl]
      · cases hcl2 : compLookup p.2 s.comps with
        | none =>
          simp [readAttributes, compLookup_mutateAt, compLookup_map_mutF f,
            compLookup_copySet, compLookup_map_bump, hcl2, hpid]
        | some c2 =>
          simp [readAttributes, compLookup_mutateAt, compLookup_map_mutF f,
            compLookup_copySet, compLookup_map_bump, hcl2, hpid, bumpUsers]
    | some c =>
      have hmem : (k, id) ∈ A := glookup_mem k A id hgl
      have hcount : 0 < List.countP (fun q => decide (q.2 = id)) A :=
        List.countP_pos_iff.mpr ⟨(k, id), hmem, by simp⟩
      have husers : 1 ≤ c.users := hUsers (k, id) hmem c hcl
      have hclc : compLookup id (copySet s A).comps
          = some (bumpUsers c (List.countP (fun q => decide (q.2 = id)) A)) := by
        rw [compLookup_copySet, hcl]
        rfl
      have hgt : ¬((bumpUsers c (List.countP (fun q => decide (q.2 = id)) A)).users ≤ 1) := by
        simp only [bumpUsers]
        omega
      have hw : GeometrySet.get_component_for_write (copySet s A) A k
          = (⟨((copySet s A).nextId,
                { bumpUsers c (List.countP (fun q => decide (q.2 = id)) A) with
                    users := 1 })
              :: ((copySet s A).setComp id
                  { bumpUsers c (List.countP (fun q => decide (q.2 = id)) A) with
                      users :=
                        (bumpUsers c
                          (List.countP (fun q => decide (q.2 = id)) A)).users - 1 }).comps,
              (copySet s A).nextId + 1⟩,
             greplace k (copySet s A).nextId A, (copySet s A).nextId) := by
        simp only [GeometrySet.get_component_for_write, hgl, hclc]
        rw [if_neg hgt]
      rw [hw]
      by_cases hpid : p.2 = id
      · subst hpid
        simp [readAttributes, compLookup_mutateAt, compLookup_map_mutF f,
          compLookup_setComp, compLookup_map_setF, compLookup_copySet,
          compLookup_map_bump, compLookup, hne, hne', hcl, bumpUsers]
      · cases hcl2 : compLookup p.2 s.comps with
        | none =>
          simp [readAttributes, compLookup_mutateAt, compLookup_map_mutF f,
            compLookup_setComp, compLookup_map_setF, compLookup_copySet,
            compLookup_map_bump, compLookup, hne, hne', hcl2, hpid]
        | some c2 =>
          simp [readAttributes, compLookup_mutateAt, compLookup_map_mutF f,
            compLookup_setComp, compLookup_map_setF, compLookup_copySet,
            compLookup_map_bump, compLookup, hne, hne', hcl2, hpid, bumpUsers]

/-- Witness for C2: copying the one-component set gs1 over st0, requesting
the mesh component for write, and erasing all its attributes leaves the
original set's attribute values unchanged. -/
theorem geometry_set_copy_on_write_no_aliasing_witness :
    (∀ p ∈ gs1, p.2 < st0.nextId)
    ∧ (∀ p ∈ gs1, ∀ c, compLookup p.2 st0.comps = some c → 1 ≤ c.users)
    ∧ ∀ p ∈ gs1,
        readAttributes
          (mutateAttributesAt
            (GeometrySet.get_component_for_write (copySet st0 gs1) gs1 .mesh).1
            (GeometrySet.get_component_for_write (copySet st0 gs1) gs1 .mesh).2.2
            (fun _ => [])) p.2
        = readAttributes st0 p.2 :=
  ⟨by decide,
   by
    intro p hp c hc
    simp only [gs1, List.mem_singleton] at hp
    subst hp
    simp only [st0, compLookup] at hc
    simp only [if_pos] at hc
    injection hc with hc
    rw [← hc]
    decide,
   geometry_set_copy_on_write_no_aliasing st0 gs1 .mesh (fun _ => [])
     (by decide)
     (by
      intro p hp c hc
      simp only [gs1, List.mem_singleton] at hp
      subst hp
      simp only [st0, compLookup] at hc
      simp only [if_pos] at hc
      injection hc with hc
      rw [← hc]
      decide)⟩
